import Mathlib

/-!
Shallow embedding of `internal/mcp/tools/render.go` from the
`canyon-cli-cloud` repository, together with theorems settling the
specification claims about it.

Conventions:
* Go strings are Lean `String`s; byte-level processing is done on `String.data`
  (the repository only ever feeds ASCII-relevant operations, and Go's
  `encoding/csv` with the default comma separator treats all multi-byte runes
  as opaque field content, which the `Char`-level model preserves).
* Effects (filesystem, environment, network, randomness, wall clock) are
  passed explicitly: the filesystem is a function `String → Option String`
  (`none` = absent/unreadable), the environment a function `String → String`
  (Go's `os.Getenv` returns `""` for unset variables), the random source a
  function from call index and bound to a value, and network/library calls
  are oracle records quantified over in the theorems.
* Fallible Go code returns `Except String α`; a Go `panic` is a distinguished
  `Outcome.panicked` result.
* External library calls (`minio-go`, `net/url` parsing) are modelled as
  oracle function records: the claims about this repository only concern how
  the repository's own code sequences and reacts to those calls.
-/

namespace Canyon

/-! ### Go `path/filepath.Clean` (Unix rules) and `filepath.Join`

`render.go` uses `filepath.Join` in two places: to build the override-template
paths under the home directory, and (applied to a single argument) to clean
the path component of the constructed public URL.  `Join` on Unix joins the
non-empty elements with `/` and applies `Clean`; `Clean` collapses repeated
separators, drops `.` elements, resolves `..` elements against preceding
components, and returns `.` for an empty result. -/

/-- Split a character list on `'/'` (separators are dropped, empty components
kept, as with Go's `strings.Split(s, "/")`). -/
def splitSlash : List Char → List (List Char)
  | [] => [[]]
  | c :: cs =>
    if c = '/' then [] :: splitSlash cs
    else
      match splitSlash cs with
      | [] => [[c]]
      | g :: gs => (c :: g) :: gs

/-- One step of `filepath.Clean`'s `..` resolution over the (reversed) stack of
output components. -/
def dotdotStep (rooted : Bool) (acc : List (List Char)) (c : List Char) :
    List (List Char) :=
  if c = ['.', '.'] then
    match acc with
    | [] => if rooted then [] else [c]
    | x :: rest => if x = ['.', '.'] then c :: acc else rest
  else c :: acc

/-- Interleave `'/'` between components. -/
def intercalateSlash : List (List Char) → List Char
  | [] => []
  | [c] => c
  | c :: cs => c ++ '/' :: intercalateSlash cs

/-- Go `filepath.Clean` on Unix, component-wise formulation: drop empty and
`.` components, resolve `..` (kept at the front of a relative path, absorbed
at the root of an absolute one), re-join, and return `.` when nothing is
left. -/
def cleanChars (p : List Char) : List Char :=
  if p = [] then ['.']
  else
    let rooted : Bool := p.head? = some '/'
    let comps := (splitSlash p).filter fun c => ¬(c = [] ∨ c = ['.'])
    let comps2 := (comps.foldl (dotdotStep rooted) []).reverse
    let out := (if rooted then ['/'] else []) ++ intercalateSlash comps2
    if out = [] then ['.'] else out

/-- Go `filepath.Clean` on strings. -/
def filepathClean (p : String) : String := ⟨cleanChars p.data⟩

/-- Go `filepath.Join(p)` with a single element: empty input stays empty,
otherwise `Clean`. -/
def filepathJoin1 (p : String) : String := if p = "" then "" else filepathClean p

/-- Go `filepath.Join(a, b)` with two non-degenerate elements (as used for the
override-template paths): join with `/` and `Clean`. -/
def filepathJoin2 (a b : String) : String :=
  if a = "" ∧ b = "" then "" else filepathClean (a ++ "/" ++ b)

/-- `true` when no two adjacent characters are both `'/'`. -/
def noDupSlash : List Char → Bool
  | [] => true
  | [_] => true
  | a :: b :: t => !(a = '/' && b = '/') && noDupSlash (b :: t)

/-! ### Template store (`init` in `render.go`)

At process initialization, for each of the three templates, `render.go` reads
a well-known override path: a read failure keeps the compiled-in default, a
non-empty file replaces it byte for byte, and an empty file is populated with
the default (the write error is discarded by the source) while the default is
used.  The filesystem is modelled as `String → Option String` with `none`
meaning the path does not exist or cannot be read. -/

/-- The resolution closure `f` inside `init`: returns the template text to use
together with the write it performs, if any (`some (path, content)` models
`os.WriteFile(path, content, 0644)`). -/
def resolveTemplate (fs : String → Option String) (path defaultContent : String) :
    String × Option (String × String) :=
  match fs path with
  | none => (defaultContent, none)
  | some raw =>
    if raw = "" then (defaultContent, some (path, defaultContent))
    else (raw, none)

/-- Apply a recorded write to the modelled filesystem (the source discards the
`os.WriteFile` error; the model therefore makes the write take effect). -/
def applyWrite (fs : String → Option String) (w : Option (String × String)) :
    String → Option String :=
  match w with
  | none => fs
  | some pc => fun q => if q = pc.1 then some pc.2 else fs q

/-- The body of `init`: if the home directory resolves, run the resolution for
the three templates in order, threading the filesystem through the writes;
otherwise all three compiled-in defaults stand.  Returns the three template
texts and the final filesystem. -/
def initTemplates (home : Option String) (fs0 : String → Option String)
    (csvDefault treeDefault graphDefault : String) :
    (String × String × String) × (String → Option String) :=
  match home with
  | none => ((csvDefault, treeDefault, graphDefault), fs0)
  | some h =>
    let rc := resolveTemplate fs0 (filepathJoin2 h "canyon-render-csv-template.html.tmpl") csvDefault
    let fs1 := applyWrite fs0 rc.2
    let rt := resolveTemplate fs1 (filepathJoin2 h "canyon-render-tree-template.html.tmpl") treeDefault
    let fs2 := applyWrite fs1 rt.2
    let rg := resolveTemplate fs2 (filepathJoin2 h "canyon-render-graph-template.html.tmpl") graphDefault
    ((rc.1, rt.1, rg.1), applyWrite fs2 rg.2)

/-! ### Object name generator (`generateRandomFilename`) -/

/-- The word list `randomWords` from `render.go`, in source order (the list
contains `"orange"` twice: once as a fruit and once as a colour). -/
def randomWords : List String :=
  ["apple", "banana", "cherry", "date", "elderberry", "fig", "grape", "honeydew",
   "kiwi", "lemon", "mango", "nectarine", "orange", "papaya", "quince", "raspberry",
   "strawberry", "tangerine", "ugli", "vanilla", "watermelon", "xigua", "yam", "zucchini",
   "red", "green", "blue", "yellow", "purple", "orange", "pink", "brown", "black", "white",
   "happy", "sad", "big", "small", "fast", "slow", "bright", "dark", "shiny", "dull"]

/-- Decimal digit characters of `n`, most significant first, as produced by
Go's `fmt.Sprintf("%d", n)` for a nonnegative value (fuel-based structural
recursion; the fuel `n + 1` always suffices). -/
def natToCharsAux : Nat → Nat → List Char
  | 0, _ => []
  | fuel + 1, n =>
    if n < 10 then [Char.ofNat (48 + n)]
    else natToCharsAux fuel (n / 10) ++ [Char.ofNat (48 + n % 10)]

/-- Decimal representation of a natural number as characters. -/
def decRepr (n : Nat) : List Char := natToCharsAux (n + 1) n

/-- Go `fmt.Sprintf("%05d", m)`: the decimal representation left-padded with
`'0'` to width 5 (for `m < 100000` the result has exactly five digits). -/
def sprintf05d (m : Nat) : String :=
  ⟨List.replicate (5 - (decRepr m).length) '0' ++ decRepr m⟩

/-- `generateRandomFilename`, generalized over the word list global.  The
random source is modelled as `randIntn : Nat → Nat → Nat`, where
`randIntn k n` is the result of the `k`-th `rand.Intn(n)` call of this
invocation (calls are made in source order: the three word draws, then the
digit draw); a faithful source satisfies `randIntn k n < n` for `0 < n`.
`nowUnixNano` models `time.Now().UnixNano()`. -/
def generateRandomFilenameWith (words : List String)
    (randIntn : Nat → Nat → Nat) (nowUnixNano : Nat) : String :=
  let n := words.length
  let fallbackPart := toString nowUnixNano
  let wordsPart :=
    if 0 < n then
      words.getD (randIntn 0 n) "" ++ "-" ++ words.getD (randIntn 1 n) "" ++ "-" ++
        words.getD (randIntn 2 n) ""
    else fallbackPart
  let digits := sprintf05d (randIntn 3 100000)
  wordsPart ++ "-" ++ digits ++ ".html"

/-- `generateRandomFilename` from `render.go` (reads the `randomWords`
global). -/
def generateRandomFilename (randIntn : Nat → Nat → Nat) (nowUnixNano : Nat) :
    String :=
  generateRandomFilenameWith randomWords randIntn nowUnixNano

/-! ### Go `encoding/csv` with default `Reader` settings

`NewRenderCSVAsTable` validates its input with
`csv.NewReader(strings.NewReader(raw)).ReadAll()` using the zero
configuration: comma separator, no comment rune, `FieldsPerRecord = 0`
(the first record fixes the expected field count), `LazyQuotes = false`,
`TrimLeadingSpace = false`.  The model below mirrors the structure of the Go
reader: a line reader that normalizes `\r\n` to `\n` (and drops a trailing
`\r` before end of input), a per-record field parser with a quoted-field
sub-loop, and a read-all loop enforcing the field-count invariant.  The
recursions are fueled; `goCSVReadAll` supplies fuel amply above the bound
(every recursive step of every loop first consumes at least one input
character, plus a constant number of steps per record). -/

/-- Go csv error sentinel: a quote appears in a non-quoted field. -/
def errBareQuote : String := "bare \" in non-quoted field"

/-- Go csv error sentinel: extraneous or missing quote in a quoted field. -/
def errQuote : String := "extraneous or missing \" in quoted-field"

/-- Go csv error sentinel: wrong number of fields in a record. -/
def errFieldCount : String := "wrong number of fields"

/-- Fuel-exhaustion marker; unreachable for the fuel supplied by
`goCSVReadAll`. -/
def errOutOfFuel : String := "internal: out of fuel"

/-- `lengthNL` from the Go reader: 1 when the line ends in `'\n'`, else 0. -/
def lengthNL (line : List Char) : Nat :=
  if line.getLast? = some '\n' then 1 else 0

/-- The Go reader's `readLine`: `none` at end of input; otherwise the next
line (including its `'\n'`, with `"\r\n"` normalized to `"\n"`; a final line
without `'\n'` has a trailing `'\r'` dropped) and the remaining input. -/
def csvReadLine (s : List Char) : Option (List Char × List Char) :=
  match s with
  | [] => none
  | _ =>
    match s.findIdx? (fun c => c = '\n') with
    | some i =>
      let raw := s.take (i + 1)
      let line :=
        match raw.reverse with
        | '\n' :: '\r' :: t => ('\n' :: t).reverse
        | _ => raw
      some (line, s.drop (i + 1))
    | none =>
      let line :=
        match s.reverse with
        | '\r' :: t => t.reverse
        | _ => s
      some (line, [])

/-- Position inside the Go `parseField` loop: either at the start of a field
(`fieldStart`, with the rest of the current line) or inside a quoted field
(`quoted`, with the accumulated field content and the rest of the current
line). -/
inductive CsvPos
  | fieldStart (line : List Char)
  | quoted (acc : List Char) (line : List Char)

/-- The Go `parseField` loop of `readRecord`, for one record.  `rest` is the
input after the current line (consumed further only when a quoted field spans
lines).  Returns the parsed fields or a parse error, together with the input
remaining after the record. -/
def parseRec : Nat → CsvPos → List Char → List (List Char) →
    Except String (List (List Char)) × List Char
  | 0, _, rest, _ => (.error errOutOfFuel, rest)
  | fuel + 1, .fieldStart line, rest, fields =>
    if line.head? = some '"' then
      -- Quoted string field.
      parseRec fuel (.quoted [] (line.drop 1)) rest fields
    else
      -- Non-quoted string field.
      match line.findIdx? (fun c => c = ',') with
      | some i =>
        let field := line.take i
        if field.contains '"' then (.error errBareQuote, rest)
        else parseRec fuel (.fieldStart (line.drop (i + 1))) rest (fields ++ [field])
      | none =>
        let field := line.take (line.length - lengthNL line)
        if field.contains '"' then (.error errBareQuote, rest)
        else (.ok (fields ++ [field]), rest)
  | fuel + 1, .quoted acc line, rest, fields =>
    match line.findIdx? (fun c => c = '"') with
    | some i =>
      -- Hit the next quote.
      let acc := acc ++ line.take i
      let line := line.drop (i + 1)
      if line.head? = some '"' then
        -- Escaped quote sequence.
        parseRec fuel (.quoted (acc ++ ['"']) (line.drop 1)) rest fields
      else if line.head? = some ',' then
        -- End of field.
        parseRec fuel (.fieldStart (line.drop 1)) rest (fields ++ [acc])
      else if line.length = lengthNL line then
        -- End of line (or of the whole input): end of record.
        (.ok (fields ++ [acc]), rest)
      else
        -- Invalid non-escaped quote.
        (.error errQuote, rest)
    | none =>
      if line ≠ [] then
        -- Line exhausted inside the quoted field: keep it and read on.
        match csvReadLine rest with
        | some lr => parseRec fuel (.quoted (acc ++ line) lr.1) lr.2 fields
        | none => (.error errQuote, rest)
      else (.error errQuote, rest)

/-- The Go `readRecord`: skip blank lines, then parse one record; `none` at
end of input. -/
def csvReadRecord (fuel : Nat) (s : List Char) :
    Option (Except String (List (List Char)) × List Char) :=
  match fuel with
  | 0 => some (.error errOutOfFuel, s)
  | fuel + 1 =>
    match csvReadLine s with
    | none => none
    | some lr =>
      if lr.1.length = lengthNL lr.1 then csvReadRecord fuel lr.2
      else some (parseRec fuel (.fieldStart lr.1) lr.2 [])

/-- The `ReadAll` loop: accumulate records, fixing the expected field count
from the first record (`FieldsPerRecord = 0`) and rejecting later records of
a different width. -/
def csvReadAllLoop (fuel : Nat) (s : List Char) (fieldsPerRecord : Nat)
    (acc : List (List String)) : Except String (List (List String)) :=
  match fuel with
  | 0 => .error errOutOfFuel
  | fuel + 1 =>
    match csvReadRecord fuel s with
    | none => .ok acc
    | some (.error e, _) => .error e
    | some (.ok rec, rest) =>
      let recS := rec.map fun f => (⟨f⟩ : String)
      if fieldsPerRecord = 0 then
        csvReadAllLoop fuel rest rec.length (acc ++ [recS])
      else if rec.length = fieldsPerRecord then
        csvReadAllLoop fuel rest fieldsPerRecord (acc ++ [recS])
      else .error errFieldCount

/-- `csv.NewReader(strings.NewReader(raw)).ReadAll()` with the default reader
configuration. -/
def goCSVReadAll (raw : String) : Except String (List (List String)) :=
  csvReadAllLoop (4 * raw.data.length + 8) raw.data 0 []

/-! ### Tool arguments (`map[string]interface{}`) and Go panics -/

/-- A Go `interface{}` value as it appears in a decoded JSON argument map. -/
inductive GoValue
  | null
  | str (s : String)
  | boolean (b : Bool)
  | num (n : Int)
  | arr (xs : List GoValue)
  | obj (fields : List (String × GoValue))

/-- The `arguments map[string]interface{}` parameter of a tool callable. -/
def Arguments : Type := List (String × GoValue)

/-- Go map indexing `arguments[k]`: the zero value (`nil` interface) when the
key is absent. -/
def lookupArg (args : Arguments) (k : String) : GoValue :=
  match List.lookup k args with
  | some v => v
  | none => GoValue.null

/-- The unchecked type assertion `v.(string)`: `none` models the run-time
panic Go raises when `v` is not a string (including the `nil` interface for a
missing key). -/
def assertString : GoValue → Option String
  | .str s => some s
  | _ => none

/-- Result of running a tool callable: either a Go panic or the returned
`([]mcp.CallToolResponseContent, error)` pair, modelled as
`Except String (List String)` (each response content is its text). -/
inductive Outcome (α : Type)
  | panicked
  | returned (r : Except String α)

/-! ### The three tool callables

The template (`tmpl.Execute`) and the publisher (`renderAndUploadToMinio`)
enter the callables as explicit functions: `tmplExec args` returns the buffer
contents on success or the execution error, and `publish buffer` returns the
public URL or the upload error.  Everything else is the literal control flow
of the `Callable` closures in `render.go`. -/

/-- The `Callable` of `NewRenderCSVAsTable` (tool
`render_csv_as_table_to_minio`). -/
def renderCSVCallable (tmplExec : Arguments → Except String String)
    (publish : String → Except String String) (args : Arguments) :
    Outcome (List String) :=
  match assertString (lookupArg args "raw") with
  | none => .panicked
  | some raw =>
    match goCSVReadAll raw with
    | .error e => .returned (.error ("invalid csv content: " ++ e))
    | .ok _ =>
      match tmplExec args with
      | .error e => .returned (.error ("could not render csv html content: " ++ e))
      | .ok buffer =>
        match publish buffer with
        | .error e => .returned (.error e)
        | .ok publicURL => .returned (.ok ["CSV rendered and uploaded: " ++ publicURL])

/-- The `Callable` of `NewRenderTreeAsTree` (tool
`render_data_as_tree_to_minio`). -/
def renderTreeCallable (tmplExec : Arguments → Except String String)
    (publish : String → Except String String) (args : Arguments) :
    Outcome (List String) :=
  match tmplExec args with
  | .error e => .returned (.error ("could not render tree html content: " ++ e))
  | .ok buffer =>
    match publish buffer with
    | .error e => .returned (.error e)
    | .ok publicURL => .returned (.ok ["Tree rendered and uploaded: " ++ publicURL])

/-- The `Callable` of `NewRenderNetworkAsGraph` (tool
`render_network_as_graph_to_minio`). -/
def renderGraphCallable (tmplExec : Arguments → Except String String)
    (publish : String → Except String String) (args : Arguments) :
    Outcome (List String) :=
  match tmplExec args with
  | .error e => .returned (.error ("could not render graph html content: " ++ e))
  | .ok buffer =>
    match publish buffer with
    | .error e => .returned (.error e)
    | .ok publicURL => .returned (.ok ["Graph rendered and uploaded: " ++ publicURL])

/-- Modelled from the spec: execution of the embedded default table template
`render_csv.html.tmpl`, whose content is not under `src/`.  Per the spec
("For all well-formed CSV inputs, `render_table` reaches the publish stage"),
executing the default table template never fails; its output is abstracted as
an arbitrary function `render` of the argument map. -/
def defaultCsvTemplateExec (render : Arguments → String) (args : Arguments) :
    Except String String :=
  .ok (render args)

/-! ### The static-endpoint Storage Publisher (`renderAndUploadToMinio`)

The minio-go client and `net/url` are external libraries; their calls are
oracle functions collected in `MinioOps`, with the client handle an abstract
type parameter.  The repository's own logic — which environment variables are
read, the missing-configuration guard, the `MINIO_USE_SSL` parsing, the order
of calls, the error wrapping, and the URL construction and cleaning — is
modelled literally. -/

/-- The subset of Go's `net/url.URL` structure that `render.go` touches:
`Host` (read for the endpoint) and `Path` (rewritten before `String()`).
`rest` stands for all remaining fields, carried through unchanged. -/
structure GoURL where
  host : String
  path : String
  rest : String
deriving DecidableEq

/-- The `minio.Options` passed to `minio.New`: static V4 credentials plus the
`Secure` flag. -/
structure MinioOptions where
  accessKeyID : String
  secretAccessKey : String
  secure : Bool
deriving DecidableEq

/-- Oracles for the external calls made by `renderAndUploadToMinio`:
`net/url.Parse`, `net/url.URL.String`, `minio.New`, and
`Client.PutObject` (receiving client, bucket, object name, content type and
content, returning the uploaded size). -/
structure MinioOps (Client : Type) where
  urlParse : String → Except String GoURL
  urlString : GoURL → String
  minioNew : String → MinioOptions → Except String Client
  putObject : Client → String → String → String → String → Except String Int

/-- Go `strconv.ParseBool`. -/
def strconvParseBool (s : String) : Option Bool :=
  if s = "1" ∨ s = "t" ∨ s = "T" ∨ s = "TRUE" ∨ s = "true" ∨ s = "True" then some true
  else if s = "0" ∨ s = "f" ∨ s = "F" ∨ s = "FALSE" ∨ s = "false" ∨ s = "False" then
    some false
  else none

/-- The missing-configuration error message of `renderAndUploadToMinio`. -/
def minioMissingEnvError : String :=
  "missing required Minio environment variables (MINIO_ENDPOINT, MINIO_ACCESS_KEY_ID, MINIO_SECRET_ACCESS_KEY, MINIO_BUCKET)"

/-- `renderAndUploadToMinio` from `render.go`.  `env` models `os.Getenv`
(unset variables read as `""`), `randIntn`/`nowUnixNano` feed
`generateRandomFilename`, and `buffer` is the rendered HTML. -/
def renderAndUploadToMinio {Client : Type} (ops : MinioOps Client)
    (env : String → String) (randIntn : Nat → Nat → Nat) (nowUnixNano : Nat)
    (buffer : String) : Except String String :=
  let endpoint := env "MINIO_ENDPOINT"
  let accessKeyID := env "MINIO_ACCESS_KEY_ID"
  let secretAccessKey := env "MINIO_SECRET_ACCESS_KEY"
  let bucketName := env "MINIO_BUCKET"
  let useSSLStr := env "MINIO_USE_SSL"
  if endpoint = "" ∨ accessKeyID = "" ∨ secretAccessKey = "" ∨ bucketName = "" then
    .error minioMissingEnvError
  else
    let useSSL :=
      if useSSLStr = "" then true
      else
        match strconvParseBool useSSLStr with
        | some b => b
        | none => true
    match ops.urlParse endpoint with
    | .error e => .error ("invalid MINIO_ENDPOINT format: " ++ e)
    | .ok endpointURL =>
      match ops.minioNew endpointURL.host ⟨accessKeyID, secretAccessKey, useSSL⟩ with
      | .error e => .error ("failed to create Minio client: " ++ e)
      | .ok minioClient =>
        let objectName := generateRandomFilename randIntn nowUnixNano
        match ops.putObject minioClient bucketName objectName "text/html" buffer with
        | .error e => .error ("failed to upload object to Minio: " ++ e)
        | .ok _uploadSize =>
          let publicURL := endpoint ++ "/" ++ bucketName ++ "/" ++ objectName
          match ops.urlParse publicURL with
          | .error _ => .ok publicURL
          | .ok parsed => .ok (ops.urlString { parsed with path := filepathJoin1 parsed.path })

/-! ### The signed-URL Storage Publisher backend (spec-modelled)

Modelled from the spec: the signed-URL backend variant of the Storage
Publisher (the repository's duplicate pipeline file) is not under `src/`;
only the static-endpoint variant (`renderAndUploadToMinio`) is.  Per spec
§4.3, the signed-URL backend authenticates with ambient credentials,
uploads to a fixed hard-coded bucket under a fixed path segment placed
before the object name, sets an HTML content type, and on success issues a
time-limited signed URL valid for 15 minutes; each step's error is wrapped
with stage-identifying context. -/

/-- Modelled from the spec: oracles for the signed-URL backend's external
storage library — ambient-credential client construction, an object write
(bucket, object key, content type, content) and signed-URL issuance
(bucket, object key, validity in seconds). -/
structure SignedURLOps (Client : Type) where
  newClient : Except String Client
  write : Client → String → String → String → String → Except String Unit
  sign : Client → String → String → Nat → Except String String

/-- Modelled from the spec: the signed-URL validity window, 15 minutes
expressed in seconds. -/
def signedURLValiditySeconds : Nat := 15 * 60

/-- Modelled from the spec: `publish` for the signed-URL backend.  `bucket`
and `keyPfx` are the compiled-in bucket name and path segment (fixed at
construction, never read from the environment). -/
def publishSigned {Client : Type} (ops : SignedURLOps Client)
    (bucket keyPfx : String) (objectName : String) (buffer : String) :
    Except String String :=
  match ops.newClient with
  | .error e => .error ("failed to create storage client: " ++ e)
  | .ok client =>
    let key := keyPfx ++ objectName
    match ops.write client bucket key "text/html" buffer with
    | .error e => .error ("failed to write object: " ++ e)
    | .ok _ =>
      match ops.sign client bucket key signedURLValiditySeconds with
      | .error e => .error ("failed to sign URL: " ++ e)
      | .ok url => .ok url

/-- Modelled from the spec: the Storage Publisher is polymorphic over the two
backend variants; the active one is fixed per process.  The signed-URL
variant carries its compiled-in bucket and path segment; the static-endpoint
variant reads its configuration from the environment. -/
inductive StorageBackend (SClient MClient : Type)
  | signedURL (ops : SignedURLOps SClient) (bucket keyPfx : String)
  | staticEndpoint (ops : MinioOps MClient) (env : String → String)

/-- Modelled from the spec: `publish(buffer) -> (url, error)`, dispatching on
the configured backend variant.  Both variants name the object with
`generateRandomFilename`. -/
def publishDocument {SClient MClient : Type}
    (backend : StorageBackend SClient MClient) (randIntn : Nat → Nat → Nat)
    (nowUnixNano : Nat) (buffer : String) : Except String String :=
  match backend with
  | .signedURL ops bucket keyPfx =>
    publishSigned ops bucket keyPfx (generateRandomFilename randIntn nowUnixNano) buffer
  | .staticEndpoint ops env =>
    renderAndUploadToMinio ops env randIntn nowUnixNano buffer

/-! ### `toRawJsonJs` and HTML escaping

The `init` function installs a template function `toRawJsonJs` that
serializes its argument with `encoding/json` and wraps the bytes in
`template.JS`, the `html/template` marker type for content that must be
emitted verbatim rather than escaped.  The model distinguishes the two kinds
of template-emitted values — trusted script content (`jsVal`) and plain
strings (`strVal`, HTML-escaped on emission) — and mirrors `json.Marshal`
for the argument values (including its default escaping of `<`, `>`, `&`
inside JSON strings, and of `"` and `\` as JSON demands; map keys are
marshalled in model order). -/

/-- Go `html.EscapeString` (the escaping `html/template` applies to plain
string interpolations): `&`, `'`, `<`, `>`, `"` become character
references. -/
def htmlEscapeChar (c : Char) : List Char :=
  if c = '&' then "&amp;".data
  else if c = '\'' then "&#39;".data
  else if c = '<' then "&lt;".data
  else if c = '>' then "&gt;".data
  else if c = '"' then "&#34;".data
  else [c]

/-- HTML-escape a string. -/
def htmlEscape (s : String) : String := ⟨s.data.flatMap htmlEscapeChar⟩

/-- JSON escaping of one character inside a string literal, as
`encoding/json` does by default: `"` and `\` get a backslash, `<`, `>`, `&`
become `\u00XX`, control characters below space become `\u00XX` (the model
covers the ASCII range the claims exercise; other characters pass through). -/
def jsonEscapeChar (c : Char) : List Char :=
  if c = '"' then ['\\', '"']
  else if c = '\\' then ['\\', '\\']
  else if c = '<' then "\\u003c".data
  else if c = '>' then "\\u003e".data
  else if c = '&' then "\\u0026".data
  else if c = '\n' then ['\\', 'n']
  else if c = '\r' then ['\\', 'r']
  else if c = '\t' then ['\\', 't']
  else [c]

/-- `encoding/json` marshalling of a string value: quoted, with the default
escaping applied to each character. -/
def jsonMarshalString (s : String) : String :=
  ⟨'"' :: s.data.flatMap jsonEscapeChar ++ ['"']⟩

mutual

/-- `encoding/json.Marshal` over the modelled argument values. -/
def jsonMarshal : GoValue → String
  | .null => "null"
  | .str s => jsonMarshalString s
  | .boolean b => if b then "true" else "false"
  | .num n => toString n
  | .arr xs => "[" ++ String.intercalate "," (jsonMarshalList xs) ++ "]"
  | .obj fields => "\x7b" ++ String.intercalate "," (jsonMarshalFields fields) ++ "\x7d"

/-- Marshal the elements of a JSON array. -/
def jsonMarshalList : List GoValue → List String
  | [] => []
  | v :: vs => jsonMarshal v :: jsonMarshalList vs

/-- Marshal the key/value pairs of a JSON object. -/
def jsonMarshalFields : List (String × GoValue) → List String
  | [] => []
  | kv :: kvs =>
    (jsonMarshalString kv.1 ++ ":" ++ jsonMarshal kv.2) :: jsonMarshalFields kvs

end

/-- A value produced by a template function: `template.JS`-marked script
content, or a plain string subject to HTML escaping. -/
inductive TemplValue
  | jsVal (s : String)
  | strVal (s : String)

/-- The text an interpolated template value contributes to the rendered
document: `template.JS` content is emitted verbatim, plain strings are
HTML-escaped. -/
def emitTemplValue : TemplValue → String
  | .jsVal s => s
  | .strVal s => htmlEscape s

/-- The `toRawJsonJs` template function from `init`: marshal the argument to
JSON and mark the bytes as `template.JS`. -/
def toRawJsonJs (content : GoValue) : TemplValue :=
  .jsVal (jsonMarshal content)

/-! ## Theorems -/

/-- **C4.** Template resolution follows the three-way case analysis: an
absent/unreadable override path keeps the compiled-in default with no write;
an existing non-empty override replaces the default byte for byte with no
write; an existing empty override keeps the default and writes the default
into the path. -/
theorem templateResolution_cases (fs : String → Option String)
    (path defaultContent : String) :
    (fs path = none →
      resolveTemplate fs path defaultContent = (defaultContent, none))
    ∧ (∀ c, fs path = some c → c ≠ "" →
      resolveTemplate fs path defaultContent = (c, none))
    ∧ (fs path = some "" →
      resolveTemplate fs path defaultContent =
        (defaultContent, some (path, defaultContent))) := by
  refine ⟨fun h => ?_, fun c h hc => ?_, fun h => ?_⟩
  · simp [resolveTemplate, h]
  · simp [resolveTemplate, h, hc]
  · simp [resolveTemplate, h]

/-- Witness for `templateResolution_cases` at concrete inputs (empty override
file case). -/
theorem templateResolution_cases_witness :
    resolveTemplate (fun _ => some "") "p" "d" = ("d", some ("p", "d")) :=
  (templateResolution_cases (fun _ => some "") "p" "d").2.2 rfl

/-- **C8.** If the override path exists and is empty and the compiled-in
default is non-empty, then after the (single) resolution of that template the
path holds exactly the compiled-in default — in particular it is non-empty —
and the default is what the process uses. -/
theorem emptyOverride_populated (fs : String → Option String)
    (path defaultContent : String) (hempty : fs path = some "")
    (hne : defaultContent ≠ "") :
    applyWrite fs (resolveTemplate fs path defaultContent).2 path =
      some defaultContent
    ∧ defaultContent ≠ ""
    ∧ (resolveTemplate fs path defaultContent).1 = defaultContent := by
  refine ⟨?_, hne, ?_⟩ <;> simp [resolveTemplate, hempty, applyWrite]

/-- Witness for `emptyOverride_populated` at concrete inputs. -/
theorem emptyOverride_populated_witness :
    applyWrite (fun _ => some "") (resolveTemplate (fun _ => some "") "p" "d").2 "p" =
      some "d" :=
  (emptyOverride_populated (fun _ => some "") "p" "d" rfl (by decide)).1

/-- **C9.** `toRawJsonJs` contributes the raw JSON serialization of its
argument to the rendered document, for every argument value; it is not the
HTML-escaped form (HTML escaping visibly differs on serializations containing
a quote character). -/
theorem toRawJsonJs_raw :
    (∀ v : GoValue, emitTemplValue (toRawJsonJs v) = jsonMarshal v)
    ∧ htmlEscape (jsonMarshal (GoValue.str "\"")) ≠
        jsonMarshal (GoValue.str "\"") := by
  refine ⟨fun v => rfl, ?_⟩
  simp only [jsonMarshal]
  decide

/-- **C3.** If any of the four required configuration values (endpoint,
access key, secret key, bucket) is unset, the static-endpoint publisher
returns the configuration error, and the result is the same for every oracle
record — no client construction, upload, URL parse or any other external call
influences it. -/
theorem minio_missingEnv_noCall {Client : Type} (ops : MinioOps Client)
    (env : String → String) (randIntn : Nat → Nat → Nat) (nowUnixNano : Nat)
    (buffer : String)
    (h : env "MINIO_ENDPOINT" = "" ∨ env "MINIO_ACCESS_KEY_ID" = "" ∨
      env "MINIO_SECRET_ACCESS_KEY" = "" ∨ env "MINIO_BUCKET" = "") :
    renderAndUploadToMinio ops env randIntn nowUnixNano buffer =
      .error minioMissingEnvError
    ∧ ∀ (Client2 : Type) (ops2 : MinioOps Client2),
        renderAndUploadToMinio ops2 env randIntn nowUnixNano buffer =
          renderAndUploadToMinio ops env randIntn nowUnixNano buffer := by
  have hmain : ∀ (C : Type) (o : MinioOps C),
      renderAndUploadToMinio o env randIntn nowUnixNano buffer =
        .error minioMissingEnvError := by
    intro C o
    rcases h with h | h | h | h <;> simp [renderAndUploadToMinio, h]
  exact ⟨hmain Client ops, fun C2 o2 => (hmain C2 o2).trans (hmain Client ops).symm⟩

/-- Witness for `minio_missingEnv_noCall`: a fully-empty environment with a
trivial oracle record. -/
theorem minio_missingEnv_noCall_witness :
    @renderAndUploadToMinio Unit
        ⟨fun _ => .error "", fun _ => "", fun _ _ => .error "",
          fun _ _ _ _ _ => .error ""⟩
        (fun _ => "") (fun _ _ => 0) 0 "" = .error minioMissingEnvError :=
  (minio_missingEnv_noCall
      ⟨fun _ => .error "", fun _ => "", fun _ _ => .error "",
        fun _ _ _ _ _ => .error ""⟩
      (fun _ => "") (fun _ _ => 0) 0 "" (Or.inl rfl)).1

/-- **C2.** The Storage Publisher dispatches over the two backend variants;
for the signed-URL variant, a publish whose client construction and write
succeed performs the write against the compiled-in bucket, under the
compiled-in path segment, with the HTML content type (all named by the
hypothesis), and returns exactly the signing call's URL, requested with the
15-minute validity window. -/
theorem signedURL_publish_success {Client : Type} (ops : SignedURLOps Client)
    (bucket keyPfx objectName buffer : String) (client : Client)
    (hclient : ops.newClient = .ok client)
    (hwrite : ops.write client bucket (keyPfx ++ objectName) "text/html" buffer =
      .ok ()) :
    (∀ url, ops.sign client bucket (keyPfx ++ objectName) signedURLValiditySeconds =
        .ok url →
      publishSigned ops bucket keyPfx objectName buffer = .ok url)
    ∧ signedURLValiditySeconds = 15 * 60
    ∧ ∀ (MClient : Type) (randIntn : Nat → Nat → Nat) (nowUnixNano : Nat),
        @publishDocument Client MClient
            (.signedURL ops bucket keyPfx) randIntn nowUnixNano buffer =
          publishSigned ops bucket keyPfx
            (generateRandomFilename randIntn nowUnixNano) buffer := by
  refine ⟨fun url hsign => ?_, rfl, fun MClient randIntn nowUnixNano => rfl⟩
  simp [publishSigned, hclient, hwrite, hsign]

/-- Witness for `signedURL_publish_success`: trivial always-succeeding
oracles. -/
theorem signedURL_publish_success_witness :
    @publishSigned Unit
        ⟨.ok (), fun _ _ _ _ _ => .ok (), fun _ _ _ _ => .ok "signed-url"⟩
        "bucket" "pfx/" "obj.html" "<html>" = .ok "signed-url" :=
  (signedURL_publish_success
      ⟨.ok (), fun _ _ _ _ _ => .ok (), fun _ _ _ _ => .ok "signed-url"⟩
      "bucket" "pfx/" "obj.html" "<html>" () rfl rfl).1 "signed-url" rfl

/-- **C10.** The table tool's callable performs an unchecked `.(string)` type
assertion on `arguments["raw"]`: when the key is absent or its value is not a
string the callable panics instead of returning an input-validation error,
and any non-panicking run had a string `"raw"` argument. -/
theorem csvTable_rawAssertion_panics (tmplExec : Arguments → Except String String)
    (publish : String → Except String String) (args : Arguments) :
    ((List.lookup "raw" args = none ∨
        ∃ v, List.lookup "raw" args = some v ∧ ∀ s, v ≠ GoValue.str s) →
      renderCSVCallable tmplExec publish args = .panicked)
    ∧ ∀ r, renderCSVCallable tmplExec publish args = .returned r →
        ∃ s, lookupArg args "raw" = .str s := by
  constructor
  · rintro (h | ⟨v, hv, hvs⟩)
    · simp [renderCSVCallable, lookupArg, h, assertString]
    · have hnone : assertString (lookupArg args "raw") = none := by
        rw [lookupArg, hv]
        cases v with
        | str s => exact absurd rfl (hvs s)
        | _ => rfl
      simp [renderCSVCallable, hnone]
  · intro r hr
    rcases hv : lookupArg args "raw" with _ | s | _ | _ | _ | _ <;>
      first
        | exact ⟨s, rfl⟩
        | simp [renderCSVCallable, hv, assertString] at hr

/-- Witness for `csvTable_rawAssertion_panics`: an argument map without a
`"raw"` key panics. -/
theorem csvTable_rawAssertion_panics_witness :
    renderCSVCallable (fun _ => .ok "") (fun _ => .ok "") [] = .panicked :=
  (csvTable_rawAssertion_panics (fun _ => .ok "") (fun _ => .ok "") []).1
    (Or.inl rfl)

/-- **C1.** With a string `"raw"` argument: if it parses as well-formed CSV,
the table callable runs the (spec-modelled, never-failing) default table
template and hands the rendered buffer to the publisher, returning exactly
the publisher's outcome; if CSV parsing fails, the callable returns the
input-validation error — the same result for every template executor and
publisher, i.e. before template execution and before any publish call. -/
theorem csvTable_validation_gate (render : Arguments → String)
    (publish : String → Except String String) (args : Arguments) (raw : String)
    (hraw : lookupArg args "raw" = .str raw) :
    (∀ recs, goCSVReadAll raw = .ok recs →
      renderCSVCallable (defaultCsvTemplateExec render) publish args =
        .returned ((publish (render args)).map
          fun publicURL => ["CSV rendered and uploaded: " ++ publicURL]))
    ∧ ∀ e, goCSVReadAll raw = .error e →
      ∀ (tmplExec : Arguments → Except String String)
        (publish2 : String → Except String String),
        renderCSVCallable tmplExec publish2 args =
          .returned (.error ("invalid csv content: " ++ e)) := by
  constructor
  · intro recs hok
    simp only [renderCSVCallable, hraw, assertString, hok, defaultCsvTemplateExec]
    cases publish (render args) <;> simp [Except.map]
  · intro e he tmplExec publish2
    simp [renderCSVCallable, hraw, assertString, he]

/-- Witness for `csvTable_validation_gate`: a well-formed two-field CSV input
reaches the publisher and returns its URL. -/
theorem csvTable_validation_gate_witness :
    renderCSVCallable (defaultCsvTemplateExec fun _ => "") (fun _ => .ok "u")
        [("raw", GoValue.str "a,b\n")] =
      .returned (.ok ["CSV rendered and uploaded: u"]) :=
  (csvTable_validation_gate (fun _ => "") (fun _ => .ok "u")
      [("raw", GoValue.str "a,b\n")] "a,b\n" rfl).1 [["a", "b"]] rfl

/-- **C7.** For each of the three render tools, a template-execution failure
yields the tool's template-stage error (for the table tool: with the CSV gate
already passed) and never invokes the publisher — the publisher function is
arbitrary and absent from the result; the table tool's template-stage message
is distinct from every input-validation message. -/
theorem templateFailure_stops_pipeline
    (tcsv ttree tgraph : Arguments → Except String String)
    (publish : String → Except String String) (args : Arguments) (e : String)
    (hc : tcsv args = .error e) (ht : ttree args = .error e)
    (hg : tgraph args = .error e) (raw : String)
    (hraw : lookupArg args "raw" = .str raw)
    (recs : List (List String)) (hok : goCSVReadAll raw = .ok recs) :
    renderCSVCallable tcsv publish args =
      .returned (.error ("could not render csv html content: " ++ e))
    ∧ renderTreeCallable ttree publish args =
      .returned (.error ("could not render tree html content: " ++ e))
    ∧ renderGraphCallable tgraph publish args =
      .returned (.error ("could not render graph html content: " ++ e))
    ∧ ∀ a b : String, "could not render csv html content: " ++ a ≠
        "invalid csv content: " ++ b := by
  refine ⟨?_, ?_, ?_, ?_⟩
  · simp [renderCSVCallable, hraw, assertString, hok, hc]
  · simp [renderTreeCallable, ht]
  · simp [renderGraphCallable, hg]
  · intro a b hcon
    have hx : ∀ s t : String, (s ++ t).data = s.data ++ t.data := by
      intro s t; cases s; cases t; rfl
    have hd := congrArg String.data hcon
    rw [hx, hx] at hd
    have h2 := congrArg (List.take 2) hd
    rw [List.take_append_of_le_length (by decide),
        List.take_append_of_le_length (by decide)] at h2
    exact absurd h2 (by decide)

/-- Witness for `templateFailure_stops_pipeline`: a failing tree template
produces the tree template-stage error. -/
theorem templateFailure_stops_pipeline_witness :
    renderTreeCallable (fun _ => .error "boom") (fun _ => .ok "")
        [("raw", GoValue.str "")] =
      .returned (.error "could not render tree html content: boom") :=
  (templateFailure_stops_pipeline (fun _ => .error "boom")
      (fun _ => .error "boom") (fun _ => .error "boom") (fun _ => .ok "")
      [("raw", GoValue.str "")] "boom" rfl rfl rfl "" rfl [] rfl).2.1

/-- A decimal digit rendered at offset 48 is a digit character. -/
theorem charOfDigit_isDigit (m : Nat) (h : m < 10) :
    (Char.ofNat (48 + m)).isDigit := by
  interval_cases m <;> decide

/-- `natToCharsAux` produces at most `k` characters for inputs below
`10 ^ k`. -/
theorem natToCharsAux_length :
    ∀ (fuel n k : Nat), 0 < k → n < 10 ^ k →
      (natToCharsAux fuel n).length ≤ k := by
  intro fuel
  induction fuel with
  | zero => intro n k _ _; simp [natToCharsAux]
  | succ f ih =>
    intro n k hk hn
    by_cases h10 : n < 10
    · simpa [natToCharsAux, h10] using hk
    · have hk2 : 2 ≤ k := by
        rcases Nat.lt_or_ge k 2 with hlt | hge
        · have hk1 : k = 1 := by omega
          subst hk1
          simp [pow_one] at hn
          omega
        · exact hge
      have hpow : 10 ^ k = 10 ^ (k - 1) * 10 := by
        conv_lhs => rw [show k = (k - 1) + 1 by omega]
        rw [pow_succ]
      have hdiv : n / 10 < 10 ^ (k - 1) := by
        rw [Nat.div_lt_iff_lt_mul (by norm_num)]
        omega
      have hrec := ih (n / 10) (k - 1) (by omega) hdiv
      simp [natToCharsAux, h10]
      omega

/-- Every character `natToCharsAux` produces is a decimal digit. -/
theorem natToCharsAux_digits :
    ∀ (fuel n : Nat) (c : Char), c ∈ natToCharsAux fuel n → c.isDigit := by
  intro fuel
  induction fuel with
  | zero => intro n c hc; simp [natToCharsAux] at hc
  | succ f ih =>
    intro n c hc
    by_cases h10 : n < 10
    · simp [natToCharsAux, h10] at hc
      exact hc ▸ charOfDigit_isDigit n h10
    · simp [natToCharsAux, h10] at hc
      rcases hc with hc | hc
      · exact ih (n / 10) c hc
      · exact hc ▸ charOfDigit_isDigit (n % 10) (Nat.mod_lt n (by norm_num))

/-- `sprintf05d` of a value below 100000 is exactly five digit characters. -/
theorem sprintf05d_spec (m : Nat) (hm : m < 100000) :
    (sprintf05d m).data.length = 5 ∧ ∀ c ∈ (sprintf05d m).data, c.isDigit := by
  have hlen : (decRepr m).length ≤ 5 :=
    natToCharsAux_length (m + 1) m 5 (by norm_num) (by simpa using hm)
  constructor
  · simp [sprintf05d]
    omega
  · intro c hc
    simp [sprintf05d] at hc
    rcases hc with hc | hc
    · exact hc.2 ▸ (by decide : ('0' : Char).isDigit)
    · exact natToCharsAux_digits (m + 1) m c hc

/-- A `getD` access within bounds is a member of the list. -/
theorem getD_mem {α : Type} (l : List α) (n : Nat) (d : α)
    (h : n < l.length) : l.getD n d ∈ l := by
  rw [List.getD_eq_getElem?_getD, List.getElem?_eq_getElem h]
  exact List.getElem_mem h

/-- **C6.** For every faithful random source, the generated object name is
`word-word-word-NNNNN.html` with the three words drawn from `randomWords` by
index and `NNNNN` exactly five zero-padded decimal digits; with an empty word
list, the words segment falls back to the nanosecond timestamp rendering. -/
theorem generateRandomFilename_pattern (randIntn : Nat → Nat → Nat)
    (nowUnixNano : Nat) (h : ∀ k n, 0 < n → randIntn k n < n) :
    (∃ w1 ∈ randomWords, ∃ w2 ∈ randomWords, ∃ w3 ∈ randomWords, ∃ d : String,
        d.data.length = 5 ∧ (∀ c ∈ d.data, c.isDigit) ∧
        generateRandomFilename randIntn nowUnixNano =
          w1 ++ "-" ++ w2 ++ "-" ++ w3 ++ "-" ++ d ++ ".html")
    ∧ ∀ (randIntn2 : Nat → Nat → Nat) (now2 : Nat),
        generateRandomFilenameWith [] randIntn2 now2 =
          toString now2 ++ "-" ++ sprintf05d (randIntn2 3 100000) ++ ".html" := by
  have hwords : 0 < randomWords.length := by decide
  have hdig := sprintf05d_spec (randIntn 3 100000) (h 3 100000 (by norm_num))
  refine ⟨⟨randomWords.getD (randIntn 0 randomWords.length) "",
      getD_mem _ _ _ (h 0 _ hwords),
      randomWords.getD (randIntn 1 randomWords.length) "",
      getD_mem _ _ _ (h 1 _ hwords),
      randomWords.getD (randIntn 2 randomWords.length) "",
      getD_mem _ _ _ (h 2 _ hwords),
      sprintf05d (randIntn 3 100000), hdig.1, hdig.2, ?_⟩,
    fun randIntn2 now2 => rfl⟩
  simp [generateRandomFilename, generateRandomFilenameWith, hwords]

/-- Witness for `generateRandomFilename_pattern` with the constant-zero
random source. -/
theorem generateRandomFilename_pattern_witness :
    (∃ w1 ∈ randomWords, ∃ w2 ∈ randomWords, ∃ w3 ∈ randomWords, ∃ d : String,
        d.data.length = 5 ∧ (∀ c ∈ d.data, c.isDigit) ∧
        generateRandomFilename (fun _ _ => 0) 0 =
          w1 ++ "-" ++ w2 ++ "-" ++ w3 ++ "-" ++ d ++ ".html")
    ∧ ∀ (randIntn2 : Nat → Nat → Nat) (now2 : Nat),
        generateRandomFilenameWith [] randIntn2 now2 =
          toString now2 ++ "-" ++ sprintf05d (randIntn2 3 100000) ++ ".html" :=
  generateRandomFilename_pattern (fun _ _ => 0) 0 (fun _ _ hn => hn)

/-- No component produced by `splitSlash` contains a separator. -/
theorem splitSlash_no_slash :
    ∀ (l : List Char) (g : List Char), g ∈ splitSlash l → '/' ∉ g := by
  intro l
  induction l with
  | nil =>
    intro g hg
    simp [splitSlash] at hg
    simp [hg]
  | cons c cs ih =>
    intro g hg
    by_cases hc : c = '/'
    · simp only [splitSlash] at hg
      rw [if_pos hc] at hg
      rcases List.mem_cons.mp hg with hg | hg
      · simp [hg]
      · exact ih g hg
    · simp only [splitSlash] at hg
      rw [if_neg hc] at hg
      cases hs : splitSlash cs with
      | nil =>
        rw [hs] at hg
        have hgc : g = [c] := by simpa using hg
        subst hgc
        intro hmem
        have hmc : '/' = c := by simpa using hmem
        exact hc hmc.symm
      | cons g0 gs =>
        rw [hs] at hg
        rcases List.mem_cons.mp hg with hg | hg
        · subst hg
          intro hmem
          rcases List.mem_cons.mp hmem with h | h
          · exact hc h.symm
          · exact ih g0 (by rw [hs]; exact List.mem_cons_self g0 gs) h
        · exact ih g (by rw [hs]; exact List.mem_cons.mpr (Or.inr hg))

/-- `dotdotStep` on a non-`..` component pushes it. -/
theorem dotdotStep_plain (rooted : Bool) (acc : List (List Char))
    (c : List Char) (h : c ≠ ['.', '.']) :
    dotdotStep rooted acc c = c :: acc := by
  unfold dotdotStep
  rw [if_neg h]

/-- `dotdotStep` on `..` with an empty stack. -/
theorem dotdotStep_dots_nil (rooted : Bool) :
    dotdotStep rooted [] ['.', '.'] =
      if rooted then [] else [['.', '.']] := by
  unfold dotdotStep
  rw [if_pos rfl]

/-- `dotdotStep` on `..` with a non-empty stack. -/
theorem dotdotStep_dots_cons (rooted : Bool) (x : List Char)
    (rest : List (List Char)) :
    dotdotStep rooted (x :: rest) ['.', '.'] =
      if x = ['.', '.'] then ['.', '.'] :: x :: rest else rest := by
  unfold dotdotStep
  rw [if_pos rfl]

/-- Every entry of the `dotdotStep` result is the new component or an old
stack entry. -/
theorem dotdotStep_mem (rooted : Bool) (acc : List (List Char))
    (c g : List Char) (hg : g ∈ dotdotStep rooted acc c) :
    g = c ∨ g ∈ acc := by
  by_cases hdot : c = ['.', '.']
  · subst hdot
    cases acc with
    | nil =>
      rw [dotdotStep_dots_nil] at hg
      cases rooted with
      | true => simp at hg
      | false => exact Or.inl (by simpa using hg)
    | cons x rest =>
      rw [dotdotStep_dots_cons] at hg
      by_cases hx : x = ['.', '.']
      · rw [if_pos hx] at hg
        rcases List.mem_cons.mp hg with h | h
        · exact Or.inl h
        · exact Or.inr h
      · rw [if_neg hx] at hg
        exact Or.inr (List.mem_cons.mpr (Or.inr hg))
  · rw [dotdotStep_plain rooted acc c hdot] at hg
    exact List.mem_cons.mp hg

/-- The `..`-resolution fold preserves "non-empty and separator-free" for
every stack entry. -/
theorem dotdotFold_inv (rooted : Bool) :
    ∀ (comps acc : List (List Char)),
      (∀ g ∈ acc, g ≠ [] ∧ '/' ∉ g) →
      (∀ g ∈ comps, g ≠ [] ∧ '/' ∉ g) →
      ∀ g ∈ comps.foldl (dotdotStep rooted) acc, g ≠ [] ∧ '/' ∉ g := by
  intro comps
  induction comps with
  | nil => intro acc hacc _ g hg; exact hacc g hg
  | cons c cs ih =>
    intro acc hacc hcomps g hg
    simp only [List.foldl_cons] at hg
    refine ih (dotdotStep rooted acc c) ?_
      (fun g' hg' => hcomps g' (List.mem_cons.mpr (Or.inr hg'))) g hg
    intro g' hg'
    rcases dotdotStep_mem rooted acc c g' hg' with h | h
    · exact h ▸ hcomps c (List.mem_cons_self c cs)
    · exact hacc g' h

/-- Prepending separator-free characters preserves `noDupSlash`. -/
theorem noDupSlash_append (c d : List Char) (hc : '/' ∉ c)
    (hd : noDupSlash d = true) : noDupSlash (c ++ d) = true := by
  induction c with
  | nil => simpa using hd
  | cons a c' ih =>
    have ha : a ≠ '/' := fun h => hc (h ▸ List.mem_cons_self a c')
    have hc' : '/' ∉ c' := fun h => hc (List.mem_cons.mpr (Or.inr h))
    have hrest := ih hc'
    show noDupSlash (a :: (c' ++ d)) = true
    cases hcd : c' ++ d with
    | nil => rfl
    | cons b t =>
      rw [hcd] at hrest
      simp [noDupSlash, ha, hrest]

/-- A separator-free character list has no duplicate separators. -/
theorem noDupSlash_of_no_slash (c : List Char) (hc : '/' ∉ c) :
    noDupSlash c = true :=
  List.append_nil c ▸ noDupSlash_append c [] hc rfl

/-- Joining non-empty separator-free components with single separators yields
no duplicate separators, and the result does not start with one. -/
theorem intercalateSlash_inv :
    ∀ l : List (List Char), (∀ g ∈ l, g ≠ [] ∧ '/' ∉ g) →
      noDupSlash (intercalateSlash l) = true ∧
      ∀ b, (intercalateSlash l).head? = some b → b ≠ '/' := by
  intro l
  induction l with
  | nil => intro _; exact ⟨rfl, by simp [intercalateSlash]⟩
  | cons c cs ih =>
    intro hl
    have hc := hl c (List.mem_cons_self c cs)
    cases cs with
    | nil =>
      refine ⟨noDupSlash_of_no_slash c hc.2, ?_⟩
      intro b hb
      cases c with
      | nil => simp [intercalateSlash] at hb
      | cons a t =>
        have hba : a = b := by simpa [intercalateSlash] using hb
        exact fun h => hc.2 (List.mem_cons.mpr (Or.inl (hba.trans h).symm))
    | cons c2 cs2 =>
      have h2 := ih (fun g hg => hl g (List.mem_cons.mpr (Or.inr hg)))
      have hstep : noDupSlash ('/' :: intercalateSlash (c2 :: cs2)) = true := by
        cases hI : intercalateSlash (c2 :: cs2) with
        | nil => rfl
        | cons b t =>
          have hb : b ≠ '/' := h2.2 b (by rw [hI]; rfl)
          have htail : noDupSlash (b :: t) = true := hI ▸ h2.1
          simp [noDupSlash, hb, htail]
      constructor
      · show noDupSlash (c ++ '/' :: intercalateSlash (c2 :: cs2)) = true
        exact noDupSlash_append c _ hc.2 hstep
      · intro b hb
        cases c with
        | nil => exact absurd rfl hc.1
        | cons a t =>
          have hba : a = b := by simpa [intercalateSlash] using hb
          exact fun h => hc.2 (List.mem_cons.mpr (Or.inl (hba.trans h).symm))

/-- The final assembly step of `cleanChars` has no duplicate separators,
given well-formed components. -/
theorem noDupSlash_cleanOut (rooted : Bool) (comps2 : List (List Char))
    (h : ∀ g ∈ comps2, g ≠ [] ∧ '/' ∉ g) :
    noDupSlash
      (if ((if rooted then ['/'] else []) ++ intercalateSlash comps2) = []
        then ['.']
        else (if rooted then ['/'] else []) ++ intercalateSlash comps2) =
      true := by
  have hI := intercalateSlash_inv comps2 h
  cases rooted with
  | false =>
    show noDupSlash
      (if intercalateSlash comps2 = [] then ['.'] else intercalateSlash comps2) = true
    by_cases h0 : intercalateSlash comps2 = []
    · rw [if_pos h0]; rfl
    · rw [if_neg h0]; exact hI.1
  | true =>
    show noDupSlash
      (if ('/' :: intercalateSlash comps2) = [] then ['.']
        else '/' :: intercalateSlash comps2) = true
    rw [if_neg (by simp)]
    cases hbb : intercalateSlash comps2 with
    | nil => rfl
    | cons b t =>
      have hb : b ≠ '/' := hI.2 b (by rw [hbb]; rfl)
      have htail : noDupSlash (b :: t) = true := hbb ▸ hI.1
      simp [noDupSlash, hb, htail]

/-- The output of `cleanChars` never contains two adjacent separators. -/
theorem cleanChars_noDupSlash (p : List Char) :
    noDupSlash (cleanChars p) = true := by
  by_cases hp : p = []
  · rw [hp]; rfl
  · have hcomps : ∀ g ∈ (splitSlash p).filter fun c => ¬(c = [] ∨ c = ['.']),
        g ≠ [] ∧ '/' ∉ g := by
      intro g hg
      have hmf := List.mem_filter.mp hg
      have hne : ¬(g = [] ∨ g = ['.']) := by simpa using hmf.2
      exact ⟨fun h => hne (Or.inl h), splitSlash_no_slash p g hmf.1⟩
    have hinv := dotdotFold_inv (p.head? = some '/')
      ((splitSlash p).filter fun c => ¬(c = [] ∨ c = ['.'])) []
      (by simp) hcomps
    simp only [cleanChars, if_neg hp]
    exact noDupSlash_cleanOut (p.head? = some '/')
      ((((splitSlash p).filter fun c => ¬(c = [] ∨ c = ['.'])).foldl
          (dotdotStep (p.head? = some '/')) []).reverse)
      (fun g hg => hinv g (List.mem_reverse.mp hg))

/-- **C5.** After a successful upload in the static-endpoint publisher: if
the string-joined public URL fails to re-parse, the raw joined string itself
is returned with no error; if it parses, the publisher returns the URL's
rendering with its path replaced by its `filepath.Join`-cleaned form — and
cleaned paths never contain duplicate separators. -/
theorem minio_publicURL_bestEffort {Client : Type} (ops : MinioOps Client)
    (env : String → String) (randIntn : Nat → Nat → Nat) (nowUnixNano : Nat)
    (buffer : String) (endpointURL : GoURL) (client : Client) (sz : Int)
    (he : env "MINIO_ENDPOINT" ≠ "") (ha : env "MINIO_ACCESS_KEY_ID" ≠ "")
    (hs : env "MINIO_SECRET_ACCESS_KEY" ≠ "") (hb : env "MINIO_BUCKET" ≠ "")
    (hparse : ops.urlParse (env "MINIO_ENDPOINT") = .ok endpointURL)
    (hnew : ops.minioNew endpointURL.host
        ⟨env "MINIO_ACCESS_KEY_ID", env "MINIO_SECRET_ACCESS_KEY",
          if env "MINIO_USE_SSL" = "" then true
          else
            match strconvParseBool (env "MINIO_USE_SSL") with
            | some b => b
            | none => true⟩ = .ok client)
    (hput : ops.putObject client (env "MINIO_BUCKET")
        (generateRandomFilename randIntn nowUnixNano) "text/html" buffer =
        .ok sz) :
    (∀ e2, ops.urlParse (env "MINIO_ENDPOINT" ++ "/" ++ env "MINIO_BUCKET" ++
          "/" ++ generateRandomFilename randIntn nowUnixNano) = .error e2 →
      renderAndUploadToMinio ops env randIntn nowUnixNano buffer =
        .ok (env "MINIO_ENDPOINT" ++ "/" ++ env "MINIO_BUCKET" ++ "/" ++
          generateRandomFilename randIntn nowUnixNano))
    ∧ (∀ u, ops.urlParse (env "MINIO_ENDPOINT" ++ "/" ++ env "MINIO_BUCKET" ++
          "/" ++ generateRandomFilename randIntn nowUnixNano) = .ok u →
      renderAndUploadToMinio ops env randIntn nowUnixNano buffer =
        .ok (ops.urlString { u with path := filepathJoin1 u.path }))
    ∧ ∀ q : String, noDupSlash (filepathClean q).data = true := by
  have hguard : ¬(env "MINIO_ENDPOINT" = "" ∨ env "MINIO_ACCESS_KEY_ID" = "" ∨
      env "MINIO_SECRET_ACCESS_KEY" = "" ∨ env "MINIO_BUCKET" = "") := by
    intro h
    rcases h with h | h | h | h
    · exact he h
    · exact ha h
    · exact hs h
    · exact hb h
  refine ⟨fun e2 hpe => ?_, fun u hpu => ?_, fun q => cleanChars_noDupSlash q.data⟩
  · simp only [renderAndUploadToMinio, if_neg hguard, hparse, hnew, hput, hpe]
  · simp only [renderAndUploadToMinio, if_neg hguard, hparse, hnew, hput, hpu]

/-- Witness for `minio_publicURL_bestEffort`: concrete always-succeeding
oracles whose URL parser reports a path with a duplicate separator, which the
publisher returns cleaned. -/
theorem minio_publicURL_bestEffort_witness :
    @renderAndUploadToMinio Unit
        ⟨fun _ => .ok ⟨"host", "/b//o", ""⟩, fun u => u.path,
          fun _ _ => .ok (), fun _ _ _ _ _ => .ok 0⟩
        (fun _ => "x") (fun _ _ => 0) 0 "" = .ok "/b/o" :=
  (minio_publicURL_bestEffort
      ⟨fun _ => .ok ⟨"host", "/b//o", ""⟩, fun u => u.path,
        fun _ _ => .ok (), fun _ _ _ _ _ => .ok 0⟩
      (fun _ => "x") (fun _ _ => 0) 0 "" ⟨"host", "/b//o", ""⟩ () 0
      (by decide) (by decide) (by decide) (by decide) rfl rfl rfl).2.1
    ⟨"host", "/b//o", ""⟩ rfl

end Canyon
